import Mathlib

set_option maxRecDepth 4000

/- Verification of with.py, a command-line tool that performs destructive
   file operations safely. Each definition below is a shallow embedding of
   the corresponding Python function of src/with.py; external collaborators
   (the filesystem queries, the two deletion primitives, the argparse
   library, the input stream and the interactive response) are modelled at
   their interface boundary. -/

/-- Whitespace characters removed by Python str.strip() with no argument:
    space, tab, newline, vertical tab, form feed, carriage return. -/
def isPyWS (c : Char) : Bool :=
  c == ' ' || c == '\t' || c == '\n' || c == '\x0b' || c == '\x0c' || c == '\r'

/-- Embedding of line.strip() as used in parse_args (with.py line 60):
    removes leading and trailing whitespace and keeps every interior
    character (embedded spaces included). -/
def pyStrip (s : String) : String :=
  String.mk (((s.toList.dropWhile isPyWS).reverse.dropWhile isPyWS).reverse)

/-- Split a character sequence at every newline, keeping empty segments
    (the segments of a text between its newline characters). -/
def pySplit : List Char → List (List Char)
  | [] => [[]]
  | c :: rest =>
    match pySplit rest with
    | [] => [[]]
    | l :: ls => if c = '\n' then [] :: l :: ls else (c :: l) :: ls

/-- Lines produced by iterating a Python text stream until end of stream:
    an empty stream yields no lines; a trailing newline does not open an
    extra empty line; each yielded line carries its terminating newline in
    Python, which the caller's strip removes, so the terminators are
    already dropped here, observationally equal after line.strip(). -/
def pyLines (s : String) : List String :=
  if s = "" then []
  else
    let parts := (pySplit s.toList).map String.mk
    if s.toList.getLast? = some '\n' then parts.dropLast else parts

/-- The three filesystem queries classify uses (os.path.exists,
    os.path.isfile, os.path.isdir), modelled as a snapshot of query results
    per path string. -/
structure FileSystem where
  existsQ : String → Bool
  isfileQ : String → Bool
  isdirQ : String → Bool

/-- Embedding of partition(items, predicate) (with.py lines 70-76). The
    source builds two lazy generators over a shared tee; consumed to lists,
    they are the items satisfying the predicate and the items refuting it,
    each in input order. -/
def partition (items : List α) (predicate : α → Bool) : List α × List α :=
  (items.filter predicate, items.filter (fun x => !(predicate x)))

/-- Embedding of classify(items) (with.py lines 79-85): partition by
    existence, the existing by isfile, the existing non-files by isdir;
    returns (files, dirs, unknown, nonexist). -/
def classify (fs : FileSystem) (items : List String) :
    List String × List String × List String × List String :=
  let en := partition items fs.existsQ
  let fn := partition en.1 fs.isfileQ
  let du := partition fn.2 fs.isdirQ
  (fn.1, du.1, du.2, en.2)

/-- The four output groups of the classifier, named as the spec names them. -/
inductive PathGroup where
  | files
  | dirs
  | unknown
  | nonexistent
  deriving DecidableEq, BEq

/-- Rendering of the spec's per-path classification rule, written from the
    claim text for C2 (not from the source) to compare classify against it:
    nonexistent if the existence query is false, else files if a regular
    file, else dirs if a directory, else unknown. -/
def specAssignGroup (fs : FileSystem) (p : String) : PathGroup :=
  if fs.existsQ p = false then PathGroup.nonexistent
  else if fs.isfileQ p then PathGroup.files
  else if fs.isdirQ p then PathGroup.dirs
  else PathGroup.unknown

/-- A call to one of the two deletion primitives of remove (with.py lines
    115-129): os.remove on a single file, shutil.rmtree on a tree. -/
inductive FsAction where
  | rmFile : String → FsAction
  | rmTree : String → FsAction
  deriving DecidableEq

/-- One of the two loops of remove (with.py lines 115-129): apply the
    primitive op to each path in order; the first failure stops the loop
    (the source prints str(e) and exits). Returns the attempted actions in
    order and the first error description, if any. -/
def removeLoop (op : String → Except String Unit) (mk : String → FsAction) :
    List String → List FsAction × Option String
  | [] => ([], none)
  | p :: ps =>
    match op p with
    | Except.ok _ =>
      let r := removeLoop op mk ps
      (mk p :: r.1, r.2)
    | Except.error e => ([mk p], some e)

/-- Embedding of remove(files, dirs) (with.py lines 115-129): every path in
    files through os.remove, then every path in dirs through shutil.rmtree;
    on the first failure the error's description is printed and the process
    exits with code 1. Result: the attempted actions and, on failure, the
    printed description with the exit code. -/
def remove (rmF rmT : String → Except String Unit) (files dirs : List String) :
    List FsAction × Option (String × Nat) :=
  match (removeLoop rmF FsAction.rmFile files).2 with
  | some e => ((removeLoop rmF FsAction.rmFile files).1, some (e, 1))
  | none =>
    match (removeLoop rmT FsAction.rmTree dirs).2 with
    | some e =>
      ((removeLoop rmF FsAction.rmFile files).1 ++
        (removeLoop rmT FsAction.rmTree dirs).1, some (e, 1))
    | none =>
      ((removeLoop rmF FsAction.rmFile files).1 ++
        (removeLoop rmT FsAction.rmTree dirs).1, none)

/-- The primitive an action invokes. -/
def execAction (rmF rmT : String → Except String Unit) : FsAction → Except String Unit
  | FsAction.rmFile p => rmF p
  | FsAction.rmTree p => rmT p

/-- The full sequence of deletions remove performs when nothing fails: all
    of files with the single-file primitive, then all of dirs with the
    recursive tree primitive. -/
def removePlan (files dirs : List String) : List FsAction :=
  files.map FsAction.rmFile ++ dirs.map FsAction.rmTree

/-- Embedding of numbins(n, binsize) (with.py lines 88-89). Python 2's / on
    integers is floor division, Int.fdiv. -/
def numbins (n binsize : Int) : Int :=
  1 + Int.fdiv (n - 1) binsize

/-- max(len(f) for f in items): length of a longest item. The source's max
    raises on an empty sequence; print_items below guards that case. -/
def maxLen (items : List String) : Nat :=
  (items.map String.length).foldl Nat.max 0

/-- Python's left-justify format to w columns. -/
def ljust (w : Nat) (s : String) : String :=
  s ++ String.mk (List.replicate (w - s.length) ' ')

/-- The rows printed by the nested loops of print_items: n lines, each
    taking up to ipl items from a shared iterator. -/
def takeRows (ipl : Nat) : Nat → List String → List (List String)
  | 0, _ => []
  | Nat.succ n, xs => xs.take ipl :: takeRows ipl n (xs.drop ipl)

/-- The column layout print_items computes and prints. -/
structure Layout where
  width : Nat
  itemsPerLine : Nat
  numLines : Nat
  rows : List (List String)
  deriving DecidableEq

/-- Embedding of print_items(hdr, items) (with.py lines 92-112): width is
    the longest length plus 2; max_cols grows from 120 to width when width
    exceeds it; items_per_line = max_cols / width; num_lines by numbins;
    items are emitted left-justified, row by row. none for an empty list
    (where the source's max() raises ValueError; main only passes non-empty
    groups). Each printed cell also receives one separator space from the
    Python print comma, not part of the cell itself. -/
def print_items (items : List String) : Option Layout :=
  match items with
  | [] => none
  | _ :: _ =>
    let width := maxLen items + 2
    let maxCols := if width > 120 then width else 120
    let ipl := maxCols / width
    let numLines := (numbins (items.length : Int) (ipl : Int)).toNat
    some ⟨width, ipl, numLines,
          (takeRows ipl numLines items).map (List.map (ljust width))⟩

/-- The command grammar of the parser: choices=[remove, move, copy]. -/
inductive Cmd where
  | remove
  | move
  | copy
  deriving DecidableEq

/-- The command's token, as interpolated into the group headers. -/
def Cmd.str : Cmd → String
  | Cmd.remove => "remove"
  | Cmd.move => "move"
  | Cmd.copy => "copy"

/-- The namespace argparse returns and parse_args post-processes: the file
    list, the command, and the two flags. -/
structure Args where
  files : List String
  command : Cmd
  interactive : Bool
  verbose : Bool
  deriving DecidableEq

/-- How parse_args can fail: a usage error (argparse's error path, which
    prints usage and exits the process with the carried status), or the
    NotImplementedError the source raises for a command other than remove
    (uncaught, so the interpreter exits with status 1). -/
inductive ParseError where
  | usage : Nat → ParseError
  | notImplemented : ParseError
  deriving DecidableEq

/-- The option tokens the parser configuration declares. -/
def isFlagTok (t : String) : Bool :=
  t == "--interactive" || t == "-i" || t == "--verbose" || t == "-v"

/-- A token argparse treats as an option: it starts with a dash and is not
    the bare dash (which argparse treats as a positional). -/
def isOptLike (t : String) : Bool :=
  t.front == '-' && t != "-"

/-- The command positional's choices check. -/
def parseCmdTok (t : String) : Option Cmd :=
  if t == "remove" then some Cmd.remove
  else if t == "move" then some Cmd.move
  else if t == "copy" then some Cmd.copy
  else none

/-- Model of the argparse call configured in parse_args (with.py lines
    30-53): the interactive and verbose flags, a files positional with
    nargs=+, then one command positional with choices remove/move/copy. A
    parse failure (an unrecognized option, fewer than two positionals, or a
    command token outside the choices) makes argparse print usage and exit
    the process with status 2, modelled as .error 2. The model covers
    invocations whose positional tokens form one contiguous block, as every
    invocation of the source's tests does; argparse's chunked matching of
    positionals interleaved with options is outside it. -/
def argparseRun (tokens : List String) : Except Nat Args :=
  if tokens.any (fun t => isOptLike t && !(isFlagTok t)) then Except.error 2
  else
    match (tokens.filter (fun t => !(isFlagTok t))).reverse with
    | cmdTok :: f :: restRev =>
      match parseCmdTok cmdTok with
      | some c =>
        Except.ok ⟨(f :: restRev).reverse, c,
          tokens.any (fun t => t == "--interactive" || t == "-i"),
          tokens.any (fun t => t == "--verbose" || t == "-v")⟩
      | none => Except.error 2
    | _ => Except.error 2

/-- Embedding of parse_args (with.py lines 30-67): run argparse; an
    interactive request forces verbose; if the file list is exactly the
    single dash, the file list is replaced by the stripped lines of the
    input stream and interactive is forced off, verbose on; finally any
    command other than remove raises NotImplementedError. -/
def parse_args (tokens : List String) (stream : String) : Except ParseError Args :=
  match argparseRun tokens with
  | Except.error code => Except.error (ParseError.usage code)
  | Except.ok a0 =>
    let a1 := if a0.interactive then { a0 with verbose := true } else a0
    let a2 :=
      if a1.files = ["-"] then
        { a1 with files := (pyLines stream).map pyStrip,
                  interactive := false, verbose := true }
      else a1
    if a2.command = Cmd.remove then Except.ok a2
    else Except.error ParseError.notImplemented

/-- Embedding of prompt_to_proceed (with.py lines 132-135): given the
    response line raw_input returned, some 0 means the process exits with
    code 0 (any response other than the single character y), none means the
    flow proceeds. -/
def prompt_to_proceed (response : String) : Option Nat :=
  if response = "y" then none else some 0

/-- One observable step on standard output or the filesystem: a group
    listing printed by print_items, a plain printed line, the confirmation
    prompt being shown, or a deletion primitive being invoked. -/
inductive Event where
  | printGroup : String → List String → Event
  | printLine : String → Event
  | prompt : String → Event
  | attempt : FsAction → Event
  deriving DecidableEq

def isReportEvent : Event → Bool
  | Event.printGroup _ _ => true
  | _ => false

def isPromptEvent : Event → Bool
  | Event.prompt _ => true
  | _ => false

def isAttemptEvent : Event → Bool
  | Event.attempt _ => true
  | _ => false

/-- The reporting part of main (with.py lines 142-155): when verbose, the
    files and dirs groups (each if non-empty, with their headers); then,
    whenever unknown or nonexist is non-empty, those groups (each if
    non-empty), unconditionally. -/
def reportPhase (verbose : Bool) (cmd : Cmd)
    (files dirs unknown nonexist : List String) : List Event :=
  (if verbose then
    (if files.isEmpty then [] else
      [Event.printGroup ("files to " ++ cmd.str ++ ":") files]) ++
    (if dirs.isEmpty then [] else
      [Event.printGroup ("dirs to " ++ cmd.str ++ ":") dirs])
  else []) ++
  (if !nonexist.isEmpty || !unknown.isEmpty then
    (if unknown.isEmpty then [] else
      [Event.printGroup ("unknown items:") unknown]) ++
    (if nonexist.isEmpty then [] else
      [Event.printGroup ("not found items:") nonexist])
  else [])

/-- The execution tail of main (with.py lines 166-168 with remove's body):
    for remove, the attempted deletions and remove's outcome (printed error
    and exit 1 on first failure, else exit 0 when main returns normally);
    any other command raises RuntimeError, which uncaught exits with 1.
    parse_args makes the latter branch unreachable from main. -/
def executePhase (rmF rmT : String → Except String Unit) (cmd : Cmd)
    (files dirs : List String) : List Event × Nat :=
  match cmd with
  | Cmd.remove =>
    let r := remove rmF rmT files dirs
    match r.2 with
    | none => (r.1.map Event.attempt, 0)
    | some ec => (r.1.map Event.attempt ++ [Event.printLine ec.1], ec.2)
  | _ => ([], 1)

/-- Embedding of the body of main after parse_args (with.py lines 138-168):
    classify, report, the nothing-to-do check (notice printed, exit 1), the
    confirmation gate when interactive, then execution. Returns the standard
    output and deletion events in order, and the process exit code. -/
def mainWithArgs (fs : FileSystem) (rmF rmT : String → Except String Unit)
    (response : String) (a : Args) : List Event × Nat :=
  let quad := classify fs a.files
  let files := quad.1
  let dirs := quad.2.1
  let unknown := quad.2.2.1
  let nonexist := quad.2.2.2
  let pre := reportPhase a.verbose a.command files dirs unknown nonexist
  if files.isEmpty && dirs.isEmpty then
    (pre ++ [Event.printLine ("Nothing to do.")], 1)
  else if a.interactive then
    match prompt_to_proceed response with
    | some code => (pre ++ [Event.prompt ("proceed? (y/n)")], code)
    | none =>
      let ex := executePhase rmF rmT a.command files dirs
      (pre ++ [Event.prompt ("proceed? (y/n)")] ++ ex.1, ex.2)
  else
    let ex := executePhase rmF rmT a.command files dirs
    (pre ++ ex.1, ex.2)

/-- Embedding of main end to end (with.py lines 138-168): parse_args (a
    usage error exits with argparse's status; the NotImplementedError for
    move/copy is uncaught and exits with status 1, both before any
    filesystem access), then the body. -/
def mainRun (fs : FileSystem) (rmF rmT : String → Except String Unit)
    (tokens : List String) (stream : String) (response : String) :
    List Event × Nat :=
  match parse_args tokens stream with
  | Except.error (ParseError.usage code) => ([], code)
  | Except.error ParseError.notImplemented => ([], 1)
  | Except.ok a => mainWithArgs fs rmF rmT response a

/-- A filesystem snapshot where no path is present. -/
def fsNone : FileSystem :=
  ⟨fun _ => false, fun _ => false, fun _ => false⟩

/-- A snapshot where exactly the path a is present, as a regular file. -/
def fsFileA : FileSystem :=
  ⟨fun p => p == "a", fun p => p == "a", fun _ => false⟩

/-- A deletion primitive that always succeeds. -/
def rmAllOk : String → Except String Unit := fun _ => Except.ok ()

/-- A deletion primitive that fails on the path b with description boom. -/
def rmFailB : String → Except String Unit :=
  fun p => if p = "b" then Except.error ("boom") else Except.ok ()

/- Shared lemmas. -/

/-- classify in closed form: the four groups are the four filters of the
    input by existence and type. -/
lemma classify_eq (fs : FileSystem) (items : List String) :
    classify fs items =
      (items.filter (fun x => fs.existsQ x && fs.isfileQ x),
       items.filter (fun x => fs.existsQ x && (!(fs.isfileQ x) && fs.isdirQ x)),
       items.filter (fun x => fs.existsQ x && (!(fs.isfileQ x) && !(fs.isdirQ x))),
       items.filter (fun x => !(fs.existsQ x))) := by
  unfold classify partition
  simp only [List.filter_filter]
  refine congrArg₂ Prod.mk ?_ (congrArg₂ Prod.mk ?_ (congrArg₂ Prod.mk ?_ rfl))
  all_goals
    refine List.filter_congr ?_
    intro x _
    cases hE : fs.existsQ x <;> cases hF : fs.isfileQ x <;> cases hD : fs.isdirQ x <;> rfl

/-- Four filters by mutually exclusive, jointly exhaustive predicates cover
    the length of the list. -/
lemma four_filter_length (p1 p2 p3 p4 : α → Bool)
    (h : ∀ x, cond (p1 x) 1 0 + cond (p2 x) 1 0 + cond (p3 x) 1 0 + cond (p4 x) 1 0 = 1)
    (l : List α) :
    (l.filter p1).length + (l.filter p2).length + (l.filter p3).length +
      (l.filter p4).length = l.length := by
  induction l with
  | nil => rfl
  | cons x xs ih =>
    have hx := h x
    cases h1 : p1 x <;> cases h2 : p2 x <;> cases h3 : p3 x <;> cases h4 : p4 x <;>
      simp only [h1, h2, h3, h4, cond_true, cond_false] at hx <;>
      simp [List.filter_cons, h1, h2, h3, h4] <;>
      omega

/-- Four filters by mutually exclusive, jointly exhaustive predicates cover
    every occurrence count of the list. -/
lemma four_filter_count [BEq α] (p1 p2 p3 p4 : α → Bool)
    (h : ∀ x, cond (p1 x) 1 0 + cond (p2 x) 1 0 + cond (p3 x) 1 0 + cond (p4 x) 1 0 = 1)
    (s : α) (l : List α) :
    (l.filter p1).count s + (l.filter p2).count s + (l.filter p3).count s +
      (l.filter p4).count s = l.count s := by
  induction l with
  | nil => rfl
  | cons x xs ih =>
    have hx := h x
    cases h1 : p1 x <;> cases h2 : p2 x <;> cases h3 : p3 x <;> cases h4 : p4 x <;>
      simp only [h1, h2, h3, h4, cond_true, cond_false] at hx <;>
      cases hxs : x == s <;>
      simp [List.filter_cons, h1, h2, h3, h4, List.count_cons, hxs] <;>
      omega

/-- The four classifier predicates hold for exactly one group on any path. -/
lemma classifier_exclusive (fs : FileSystem) :
    ∀ x : String,
      cond (fs.existsQ x && fs.isfileQ x) 1 0 +
        cond (fs.existsQ x && (!(fs.isfileQ x) && fs.isdirQ x)) 1 0 +
        cond (fs.existsQ x && (!(fs.isfileQ x) && !(fs.isdirQ x))) 1 0 +
        cond (!(fs.existsQ x)) 1 0 = 1 := by
  intro x
  cases hE : fs.existsQ x <;> cases hF : fs.isfileQ x <;> cases hD : fs.isdirQ x <;> rfl

/-- C1: classify returns four ordered groups whose lengths sum to the length
    of the input, each group an order-preserving subsequence of the input,
    and each input occurrence counted in exactly one group (the four counts
    of any string add up to its count in the input). -/
theorem classify_partitions_input (fs : FileSystem) (items : List String) :
    ((classify fs items).1.length + (classify fs items).2.1.length +
        (classify fs items).2.2.1.length + (classify fs items).2.2.2.length
      = items.length) ∧
    List.Sublist (classify fs items).1 items ∧
    List.Sublist (classify fs items).2.1 items ∧
    List.Sublist (classify fs items).2.2.1 items ∧
    List.Sublist (classify fs items).2.2.2 items ∧
    ∀ s : String,
      (classify fs items).1.count s + (classify fs items).2.1.count s +
          (classify fs items).2.2.1.count s + (classify fs items).2.2.2.count s
        = items.count s := by
  rw [classify_eq]
  exact ⟨four_filter_length _ _ _ _ (classifier_exclusive fs) items,
    List.filter_sublist items, List.filter_sublist items,
    List.filter_sublist items, List.filter_sublist items,
    fun s => four_filter_count _ _ _ _ (classifier_exclusive fs) s items⟩

/-- C2: classify assigns every input occurrence by the rule of the spec:
    nonexistent when the existence query is false, else files when the
    regular-file query holds, else dirs when the directory query holds, else
    unknown. Each group equals the filter of the whole input by that rule,
    so duplicate occurrences are classified independently, never
    deduplicated. -/
theorem classify_implements_rule (fs : FileSystem) (items : List String) :
    classify fs items =
      (items.filter (fun p => specAssignGroup fs p == PathGroup.files),
       items.filter (fun p => specAssignGroup fs p == PathGroup.dirs),
       items.filter (fun p => specAssignGroup fs p == PathGroup.unknown),
       items.filter (fun p => specAssignGroup fs p == PathGroup.nonexistent)) := by
  rw [classify_eq]
  refine congrArg₂ Prod.mk ?_ (congrArg₂ Prod.mk ?_ (congrArg₂ Prod.mk ?_ ?_)) <;>
    refine List.filter_congr ?_ <;>
    intro x _ <;>
    cases hE : fs.existsQ x <;> cases hF : fs.isfileQ x <;> cases hD : fs.isdirQ x <;>
      simp only [specAssignGroup, hE, hF, hD] <;> decide
/-- A loop of remove that finishes without error ran its primitive
    successfully on every path, in order. -/
lemma removeLoop_none (op : String → Except String Unit) (mk : String → FsAction)
    (ps : List String) (h : (removeLoop op mk ps).2 = none) :
    (removeLoop op mk ps).1 = ps.map mk ∧ ∀ p ∈ ps, op p = Except.ok () := by
  induction ps with
  | nil => exact ⟨rfl, by intro p hp; cases hp⟩
  | cons p ps ih =>
    cases hop : op p with
    | ok u =>
      cases u
      simp only [removeLoop, hop] at h ⊢
      obtain ⟨h1, h2⟩ := ih h
      refine ⟨by rw [h1]; rfl, ?_⟩
      intro q hq
      rcases List.mem_cons.mp hq with hq | hq
      · rw [hq, hop]
      · exact h2 q hq
    | error e =>
      simp [removeLoop, hop] at h

/-- A loop of remove that stopped with an error ran every earlier path
    successfully, failed on one path with that error, and attempted nothing
    after it. -/
lemma removeLoop_some (op : String → Except String Unit) (mk : String → FsAction)
    (ps : List String) (e : String) (h : (removeLoop op mk ps).2 = some e) :
    ∃ pre p suf, ps = pre ++ p :: suf ∧
      (removeLoop op mk ps).1 = pre.map mk ++ [mk p] ∧
      op p = Except.error e ∧ ∀ q ∈ pre, op q = Except.ok () := by
  induction ps with
  | nil => simp [removeLoop] at h
  | cons p ps ih =>
    cases hop : op p with
    | ok u =>
      cases u
      simp only [removeLoop, hop] at h ⊢
      obtain ⟨pre, q, suf, h1, h2, h3, h4⟩ := ih h
      refine ⟨p :: pre, q, suf, by rw [h1]; rfl, by simp [h2], h3, ?_⟩
      intro r hr
      rcases List.mem_cons.mp hr with hr | hr
      · rw [hr, hop]
      · exact h4 r hr
    | error e2 =>
      simp only [removeLoop, hop, Option.some.injEq] at h
      exact ⟨[], p, ps, rfl, by simp [removeLoop, hop], by rw [hop, h],
        by intro q hq; cases hq⟩
/-- C3: remove deletes the files (single-file primitive) before the dirs
    (recursive tree primitive). If every deletion succeeds it attempts
    exactly the whole plan and forces no exit (the process can go on to exit
    0); on the first failing deletion it stops with the failure's
    description and exit code 1: the attempts are a strict prefix of the
    plan ending at the failing action, every earlier action succeeded, and
    nothing after the failure is attempted. -/
theorem remove_fail_fast (rmF rmT : String → Except String Unit)
    (files dirs : List String) (e : String) (c : Nat) :
    ((remove rmF rmT files dirs).2 = none →
      (remove rmF rmT files dirs).1 = removePlan files dirs ∧
      ∀ a ∈ (remove rmF rmT files dirs).1, execAction rmF rmT a = Except.ok ()) ∧
    ((remove rmF rmT files dirs).2 = some (e, c) →
      c = 1 ∧
      ∃ pre a rest,
        (remove rmF rmT files dirs).1 = pre ++ [a] ∧
        removePlan files dirs = pre ++ a :: rest ∧
        execAction rmF rmT a = Except.error e ∧
        ∀ b ∈ pre, execAction rmF rmT b = Except.ok ()) := by
  constructor
  · intro h
    cases hf : (removeLoop rmF FsAction.rmFile files).2 with
    | some e1 =>
      simp only [remove, hf] at h
      exact Option.noConfusion h
    | none =>
      cases hd : (removeLoop rmT FsAction.rmTree dirs).2 with
      | some e2 =>
        simp only [remove, hf, hd] at h
        exact Option.noConfusion h
      | none =>
        obtain ⟨hf1, hf2⟩ := removeLoop_none rmF FsAction.rmFile files hf
        obtain ⟨hd1, hd2⟩ := removeLoop_none rmT FsAction.rmTree dirs hd
        simp only [remove, hf, hd]
        refine ⟨by rw [hf1, hd1]; rfl, ?_⟩
        intro a ha
        rcases List.mem_append.mp ha with ha | ha
        · rw [hf1] at ha
          obtain ⟨p, hp, rfl⟩ := List.mem_map.mp ha
          exact hf2 p hp
        · rw [hd1] at ha
          obtain ⟨p, hp, rfl⟩ := List.mem_map.mp ha
          exact hd2 p hp
  · intro h
    cases hf : (removeLoop rmF FsAction.rmFile files).2 with
    | some e1 =>
      simp only [remove, hf, Option.some.injEq, Prod.mk.injEq] at h
      obtain ⟨rfl, rfl⟩ := h
      obtain ⟨pre, p, suf, h1, h2, h3, h4⟩ :=
        removeLoop_some rmF FsAction.rmFile files e1 hf
      refine ⟨rfl, pre.map FsAction.rmFile, FsAction.rmFile p,
        suf.map FsAction.rmFile ++ dirs.map FsAction.rmTree, ?_, ?_, h3, ?_⟩
      · simp only [remove, hf]
        exact h2
      · simp [removePlan, h1]
      · intro b hb
        obtain ⟨q, hq, rfl⟩ := List.mem_map.mp hb
        exact h4 q hq
    | none =>
      cases hd : (removeLoop rmT FsAction.rmTree dirs).2 with
      | none =>
        simp only [remove, hf, hd] at h
        exact Option.noConfusion h
      | some e2 =>
        simp only [remove, hf, hd, Option.some.injEq, Prod.mk.injEq] at h
        obtain ⟨rfl, rfl⟩ := h
        obtain ⟨hf1, hf2⟩ := removeLoop_none rmF FsAction.rmFile files hf
        obtain ⟨pre, p, suf, h1, h2, h3, h4⟩ :=
          removeLoop_some rmT FsAction.rmTree dirs e2 hd
        refine ⟨rfl, files.map FsAction.rmFile ++ pre.map FsAction.rmTree,
          FsAction.rmTree p, suf.map FsAction.rmTree, ?_, ?_, h3, ?_⟩
        · simp only [remove, hf, hd]
          rw [hf1, h2]
          simp
        · simp [removePlan, h1]
        · intro b hb
          rcases List.mem_append.mp hb with hb | hb
          · obtain ⟨q, hq, rfl⟩ := List.mem_map.mp hb
            exact hf2 q hq
          · obtain ⟨q, hq, rfl⟩ := List.mem_map.mp hb
            exact h4 q hq
/-- takeRows produces exactly the requested number of rows. -/
lemma takeRows_length (ipl n : Nat) (xs : List String) :
    (takeRows ipl n xs).length = n := by
  induction n generalizing xs with
  | zero => rfl
  | succ n ih => simp [takeRows, ih]

/-- Enough rows reassemble the whole list in order. -/
lemma takeRows_flatten (ipl n : Nat) (xs : List String)
    (h : xs.length ≤ n * ipl) :
    (takeRows ipl n xs).flatten = xs := by
  induction n generalizing xs with
  | zero =>
    have : xs = [] := List.eq_nil_of_length_eq_zero (by omega)
    simp [this, takeRows]
  | succ n ih =>
    have hlen : (xs.drop ipl).length = xs.length - ipl := List.length_drop ipl xs
    have hrec : (xs.drop ipl).length ≤ n * ipl := by
      rw [Nat.succ_mul] at h
      omega
    simp only [takeRows, List.flatten_cons, ih (xs.drop ipl) hrec]
    exact List.take_append_drop ipl xs

/-- Every row takeRows produces holds at most ipl items. -/
lemma takeRows_row_le (ipl n : Nat) (xs : List String) :
    ∀ r ∈ takeRows ipl n xs, r.length ≤ ipl := by
  induction n generalizing xs with
  | zero => intro r hr; cases hr
  | succ n ih =>
    intro r hr
    rcases List.mem_cons.mp hr with hr | hr
    · subst hr
      simp [List.length_take]
    · exact ih (xs.drop ipl) r hr
/-- numbins computes the ceiling of n / b on positive inputs. -/
lemma numbins_ceil (n b : Nat) (hn : 1 ≤ n) (hb : 1 ≤ b) :
    (numbins (n : Int) (b : Int)).toNat = (n + b - 1) / b := by
  have hcast : ((n : Int) - 1) = ((n - 1 : Nat) : Int) := by omega
  have hfd : Int.fdiv ((n - 1 : Nat) : Int) ((b : Nat) : Int) = (((n - 1) / b : Nat) : Int) :=
    (Int.ofNat_fdiv (n - 1) b).symm
  unfold numbins
  rw [hcast, hfd]
  have h2 : (1 : Int) + (((n - 1) / b : Nat) : Int) = (((n - 1) / b + 1 : Nat) : Int) := by
    omega
  rw [h2, Int.toNat_natCast]
  have h3 : n + b - 1 = (n - 1) + b := by omega
  rw [h3, Nat.add_div_right _ (by omega)]

/-- The ceiling of len / b times b reaches len. -/
lemma ceil_mul_ge (len b : Nat) (hb : 1 ≤ b) :
    len ≤ ((len + b - 1) / b) * b := by
  rcases Nat.eq_zero_or_pos len with h0 | hpos
  · simp [h0]
  · have heq : (len + b - 1) / b = (len - 1) / b + 1 := by
      have h3 : len + b - 1 = (len - 1) + b := by omega
      rw [h3, Nat.add_div_right _ (by omega)]
    have hdm := Nat.div_add_mod (len - 1) b
    have hmod : (len - 1) % b < b := Nat.mod_lt _ (by omega)
    have hgoal : ((len - 1) / b + 1) * b = b * ((len - 1) / b) + b := by ring
    rw [heq, hgoal]
    generalize b * ((len - 1) / b) = t at hdm ⊢
    omega

/-- C7: for a non-empty group, print_items uses column width longest+2;
    floor(120 / width) columns per line, and exactly 1 column when that
    width (a single item's width, padding included, as the source names it)
    exceeds 120; ceil(count / columns) lines; rows in input order (their
    concatenation is the items, left-justified, so the grid is filled left
    to right, then top to bottom) with at most columnsPerLine entries per
    row. -/
theorem print_items_layout (items : List String) (L : Layout)
    (h : print_items items = some L) :
    L.width = maxLen items + 2 ∧
    (L.width ≤ 120 → L.itemsPerLine = 120 / L.width) ∧
    (120 < L.width → L.itemsPerLine = 1) ∧
    L.numLines = (items.length + L.itemsPerLine - 1) / L.itemsPerLine ∧
    L.rows.length = L.numLines ∧
    L.rows.flatten = items.map (ljust L.width) ∧
    ∀ r ∈ L.rows, r.length ≤ L.itemsPerLine := by
  cases items with
  | nil => simp [print_items] at h
  | cons x xs =>
    simp only [print_items] at h
    injection h with h2
    subst h2
    dsimp only
    have hwpos : 0 < maxLen (x :: xs) + 2 := by omega
    have hipl1 : 1 ≤ (if maxLen (x :: xs) + 2 > 120 then maxLen (x :: xs) + 2 else 120) /
        (maxLen (x :: xs) + 2) := by
      by_cases hw : maxLen (x :: xs) + 2 > 120
      · rw [if_pos hw, Nat.div_self hwpos]
      · rw [if_neg hw, Nat.one_le_div_iff hwpos]
        omega
    have hlen1 : 1 ≤ (x :: xs).length := by simp
    refine ⟨rfl, ?_, ?_, ?_, ?_, ?_, ?_⟩
    · intro hle
      rw [if_neg (by omega)]
    · intro hgt
      rw [if_pos (by omega), Nat.div_self hwpos]
    · exact numbins_ceil _ _ hlen1 hipl1
    · rw [List.length_map, takeRows_length]
    · rw [← List.map_flatten, takeRows_flatten]
      rw [numbins_ceil _ _ hlen1 hipl1]
      exact ceil_mul_ge _ _ hipl1
    · intro r hr
      obtain ⟨r0, hr0, rfl⟩ := List.mem_map.mp hr
      rw [List.length_map]
      exact takeRows_row_le _ _ _ r0 hr0
/-- The modelled argparse fails only by exiting with status 2. -/
lemma argparseRun_error_code (tokens : List String) (c : Nat)
    (h : argparseRun tokens = Except.error c) : c = 2 := by
  unfold argparseRun at h
  split at h
  · injection h with h1
    omega
  · split at h
    · split at h
      · cases h
      · injection h with h1
        omega
    · injection h with h1
      omega

/-- parse_args in closed form on a successful argparse: NotImplementedError
    unless the command is remove; the dash sentinel swaps in the stripped
    stream lines and forces the flags; otherwise interactive forces
    verbose. -/
lemma parse_args_eq (tokens : List String) (stream : String) (a0 : Args)
    (h0 : argparseRun tokens = Except.ok a0) :
    parse_args tokens stream =
      if a0.command = Cmd.remove then
        Except.ok
          (if a0.files = ["-"] then
            { files := (pyLines stream).map pyStrip, command := a0.command,
              interactive := false, verbose := true }
          else
            { files := a0.files, command := a0.command,
              interactive := a0.interactive,
              verbose := a0.interactive || a0.verbose })
      else Except.error ParseError.notImplemented := by
  obtain ⟨f0, c0, i0, v0⟩ := a0
  unfold parse_args
  rw [h0]
  by_cases hi : i0 = true <;>
    by_cases hf : f0 = ["-"] <;>
    simp_all

/-- parse_args succeeds only with the remove command. -/
lemma parse_args_ok_remove (tokens : List String) (stream : String) (a : Args)
    (h : parse_args tokens stream = Except.ok a) : a.command = Cmd.remove := by
  cases h0 : argparseRun tokens with
  | error c =>
    unfold parse_args at h
    rw [h0] at h
    cases h
  | ok a0 =>
    rw [parse_args_eq tokens stream a0 h0] at h
    by_cases hc : a0.command = Cmd.remove
    · rw [if_pos hc] at h
      injection h with h1
      rw [← h1]
      by_cases hf : a0.files = ["-"] <;> simp [hf, hc]
    · rw [if_neg hc] at h
      cases h

/-- C6: the file list is replaced by the stripped lines of standard input
    exactly when the parsed file list is the single token dash; then
    interactive is forced off and verbose forced on. Otherwise the file
    list stays the parsed one and interactive is untouched. -/
theorem parse_args_stdin_sourcing (tokens : List String) (stream : String)
    (a0 a : Args)
    (h0 : argparseRun tokens = Except.ok a0)
    (h : parse_args tokens stream = Except.ok a) :
    (a0.files = ["-"] →
      a.files = (pyLines stream).map pyStrip ∧
      a.interactive = false ∧ a.verbose = true) ∧
    (a0.files ≠ ["-"] → a.files = a0.files ∧ a.interactive = a0.interactive) := by
  rw [parse_args_eq tokens stream a0 h0] at h
  by_cases hc : a0.command = Cmd.remove
  · rw [if_pos hc] at h
    injection h with h1
    constructor
    · intro hf
      rw [← h1, if_pos hf]
      exact ⟨rfl, rfl, rfl⟩
    · intro hf
      rw [← h1, if_neg hf]
      exact ⟨rfl, rfl⟩
  · rw [if_neg hc] at h
    cases h

/-- C8: a parsed command of move or copy makes parse_args fail with
    NotImplementedError, a condition distinct from every usage error, at
    request construction: the whole run produces no output event and no
    deletion for every filesystem and both primitives, exits 1, and never
    classifies anything. -/
theorem move_copy_not_implemented (tokens : List String) (stream : String)
    (a0 : Args) (fs : FileSystem) (rmF rmT : String → Except String Unit)
    (response : String) (c : Nat)
    (h0 : argparseRun tokens = Except.ok a0)
    (hc : a0.command = Cmd.move ∨ a0.command = Cmd.copy) :
    parse_args tokens stream = Except.error ParseError.notImplemented ∧
    ParseError.notImplemented ≠ ParseError.usage c ∧
    mainRun fs rmF rmT tokens stream response = ([], 1) := by
  have hne : ¬(a0.command = Cmd.remove) := by
    intro hx
    rcases hc with hc | hc <;> rw [hc] at hx <;> cases hx
  have hp : parse_args tokens stream = Except.error ParseError.notImplemented := by
    rw [parse_args_eq tokens stream a0 h0, if_neg hne]
  refine ⟨hp, ?_, ?_⟩
  · intro hx
    cases hx
  · unfold mainRun
    rw [hp]
/-- Every event of the reporting phase is a group listing. -/
lemma reportPhase_reports (v : Bool) (cmd : Cmd) (fi di un ne : List String) :
    ∀ e ∈ reportPhase v cmd fi di un ne, isReportEvent e = true := by
  intro e he
  unfold reportPhase at he
  rcases List.mem_append.mp he with h | h
  · split at h
    · rcases List.mem_append.mp h with h | h <;> split at h <;>
        simp_all [isReportEvent]
    · cases h
  · split at h
    · rcases List.mem_append.mp h with h | h <;> split at h <;>
        simp_all [isReportEvent]
    · cases h

/-- The nothing-to-do branch of main in closed form. -/
lemma mainWithArgs_nothing (fs : FileSystem) (rmF rmT : String → Except String Unit)
    (response : String) (a : Args)
    (hf : (classify fs a.files).1 = [])
    (hd : (classify fs a.files).2.1 = []) :
    mainWithArgs fs rmF rmT response a =
      (reportPhase a.verbose a.command [] [] (classify fs a.files).2.2.1
          (classify fs a.files).2.2.2 ++ [Event.printLine ("Nothing to do.")], 1) := by
  simp only [mainWithArgs]
  rw [hf, hd]
  rfl

/-- Some group is non-empty exactly when the emptiness test of main is
    false. -/
lemma classify_cond_false (fs : FileSystem) (a : Args)
    (hne : ¬((classify fs a.files).1 = [] ∧ (classify fs a.files).2.1 = [])) :
    ((classify fs a.files).1.isEmpty && (classify fs a.files).2.1.isEmpty) = false := by
  rw [Bool.eq_false_iff]
  intro hx
  rw [Bool.and_eq_true, List.isEmpty_iff, List.isEmpty_iff] at hx
  exact hne hx

/-- The declined-prompt branch of main in closed form. -/
lemma mainWithArgs_decline (fs : FileSystem) (rmF rmT : String → Except String Unit)
    (response : String) (a : Args)
    (hi : a.interactive = true)
    (hne : ¬((classify fs a.files).1 = [] ∧ (classify fs a.files).2.1 = []))
    (hr : response ≠ "y") :
    mainWithArgs fs rmF rmT response a =
      (reportPhase a.verbose a.command (classify fs a.files).1
          (classify fs a.files).2.1 (classify fs a.files).2.2.1
          (classify fs a.files).2.2.2 ++ [Event.prompt ("proceed? (y/n)")], 0) := by
  simp only [mainWithArgs, classify_cond_false fs a hne, Bool.false_eq_true, if_false,
    hi, if_true, prompt_to_proceed, if_neg hr]

/-- The accepted-prompt branch of main in closed form. -/
lemma mainWithArgs_accept (fs : FileSystem) (rmF rmT : String → Except String Unit)
    (response : String) (a : Args)
    (hi : a.interactive = true)
    (hne : ¬((classify fs a.files).1 = [] ∧ (classify fs a.files).2.1 = []))
    (hy : response = "y") :
    mainWithArgs fs rmF rmT response a =
      (reportPhase a.verbose a.command (classify fs a.files).1
          (classify fs a.files).2.1 (classify fs a.files).2.2.1
          (classify fs a.files).2.2.2 ++ [Event.prompt ("proceed? (y/n)")] ++
        (executePhase rmF rmT a.command (classify fs a.files).1
          (classify fs a.files).2.1).1,
       (executePhase rmF rmT a.command (classify fs a.files).1
          (classify fs a.files).2.1).2) := by
  simp only [mainWithArgs, classify_cond_false fs a hne, Bool.false_eq_true, if_false,
    hi, if_true, prompt_to_proceed, if_pos hy]

/-- The non-interactive execution branch of main in closed form. -/
lemma mainWithArgs_noninteractive (fs : FileSystem)
    (rmF rmT : String → Except String Unit) (response : String) (a : Args)
    (hi : a.interactive = false)
    (hne : ¬((classify fs a.files).1 = [] ∧ (classify fs a.files).2.1 = [])) :
    mainWithArgs fs rmF rmT response a =
      (reportPhase a.verbose a.command (classify fs a.files).1
          (classify fs a.files).2.1 (classify fs a.files).2.2.1
          (classify fs a.files).2.2.2 ++
        (executePhase rmF rmT a.command (classify fs a.files).1
          (classify fs a.files).2.1).1,
       (executePhase rmF rmT a.command (classify fs a.files).1
          (classify fs a.files).2.1).2) := by
  simp only [mainWithArgs, classify_cond_false fs a hne, Bool.false_eq_true, if_false,
    hi, if_true]

/-- C4: when classification leaves both files and dirs empty, main prints
    the notice Nothing to do. and exits with code 1, showing no confirmation
    prompt and attempting no deletion. -/
theorem main_nothing_to_do (fs : FileSystem) (rmF rmT : String → Except String Unit)
    (response : String) (a : Args)
    (hf : (classify fs a.files).1 = [])
    (hd : (classify fs a.files).2.1 = []) :
    (mainWithArgs fs rmF rmT response a).2 = 1 ∧
    Event.printLine ("Nothing to do.") ∈ (mainWithArgs fs rmF rmT response a).1 ∧
    ∀ e ∈ (mainWithArgs fs rmF rmT response a).1,
      isPromptEvent e = false ∧ isAttemptEvent e = false := by
  rw [mainWithArgs_nothing fs rmF rmT response a hf hd]
  refine ⟨rfl, by simp, ?_⟩
  intro e he
  rcases List.mem_append.mp he with h | h
  · have hrep := reportPhase_reports _ _ _ _ _ _ e h
    cases e <;> simp_all [isReportEvent, isPromptEvent, isAttemptEvent]
  · have he2 := List.mem_singleton.mp h
    subst he2
    exact ⟨rfl, rfl⟩

/-- C5: with interactive mode on and something to act on, the reports come
    first, then the prompt; any response other than the single character y
    exits immediately with code 0 having attempted no deletion, and the
    response y hands over to the executor, whose events and exit code
    follow the prompt. -/
theorem main_confirmation_gate (fs : FileSystem)
    (rmF rmT : String → Except String Unit) (response : String) (a : Args)
    (hi : a.interactive = true)
    (hne : ¬((classify fs a.files).1 = [] ∧ (classify fs a.files).2.1 = [])) :
    (∀ e ∈ reportPhase a.verbose a.command (classify fs a.files).1
        (classify fs a.files).2.1 (classify fs a.files).2.2.1
        (classify fs a.files).2.2.2, isReportEvent e = true) ∧
    (response ≠ "y" →
      mainWithArgs fs rmF rmT response a =
        (reportPhase a.verbose a.command (classify fs a.files).1
            (classify fs a.files).2.1 (classify fs a.files).2.2.1
            (classify fs a.files).2.2.2 ++ [Event.prompt ("proceed? (y/n)")], 0) ∧
      ∀ e ∈ (mainWithArgs fs rmF rmT response a).1, isAttemptEvent e = false) ∧
    (response = "y" →
      mainWithArgs fs rmF rmT response a =
        (reportPhase a.verbose a.command (classify fs a.files).1
            (classify fs a.files).2.1 (classify fs a.files).2.2.1
            (classify fs a.files).2.2.2 ++ [Event.prompt ("proceed? (y/n)")] ++
          (executePhase rmF rmT a.command (classify fs a.files).1
            (classify fs a.files).2.1).1,
         (executePhase rmF rmT a.command (classify fs a.files).1
            (classify fs a.files).2.1).2)) := by
  refine ⟨reportPhase_reports _ _ _ _ _ _, ?_, ?_⟩
  · intro hr
    have hmain := mainWithArgs_decline fs rmF rmT response a hi hne hr
    refine ⟨hmain, ?_⟩
    rw [hmain]
    intro e he
    rcases List.mem_append.mp he with h | h
    · have hrep := reportPhase_reports _ _ _ _ _ _ e h
      cases e <;> simp_all [isReportEvent, isAttemptEvent]
    · have he2 := List.mem_singleton.mp h
      subst he2
      rfl
  · intro hy
    exact mainWithArgs_accept fs rmF rmT response a hi hne hy
/-- A failing remove always exits with code 1. -/
lemma remove_some_code (rmF rmT : String → Except String Unit)
    (files dirs : List String) (e : String) (c : Nat)
    (h : (remove rmF rmT files dirs).2 = some (e, c)) : c = 1 := by
  cases hf : (removeLoop rmF FsAction.rmFile files).2 with
  | some e1 =>
    simp only [remove, hf, Option.some.injEq, Prod.mk.injEq] at h
    exact h.2.symm
  | none =>
    cases hd : (removeLoop rmT FsAction.rmTree dirs).2 with
    | some e2 =>
      simp only [remove, hf, hd, Option.some.injEq, Prod.mk.injEq] at h
      exact h.2.symm
    | none =>
      simp only [remove, hf, hd] at h
      exact Option.noConfusion h

/-- A fully successful remove lets the executor exit with 0. -/
lemma executePhase_exit_none (rmF rmT : String → Except String Unit)
    (files dirs : List String)
    (h : (remove rmF rmT files dirs).2 = none) :
    (executePhase rmF rmT Cmd.remove files dirs).2 = 0 := by
  simp only [executePhase, h]

/-- A failing remove propagates its exit code through the executor. -/
lemma executePhase_exit_some (rmF rmT : String → Except String Unit)
    (files dirs : List String) (e : String) (c : Nat)
    (h : (remove rmF rmT files dirs).2 = some (e, c)) :
    (executePhase rmF rmT Cmd.remove files dirs).2 = c := by
  simp only [executePhase, h]

/-- C9 (amended): exit code 0 on success and on graceful decline at the
    prompt; exit code 1 for the nothing-to-do condition, for a deletion
    failure, and for the unsupported move and copy commands (uncaught
    NotImplementedError); and exit code 2, argparse's error status, for a
    usage error such as zero path tokens or an invalid command token. -/
theorem exit_code_semantics (fs : FileSystem) (rmF rmT : String → Except String Unit)
    (tokens : List String) (stream response : String) (a : Args) (c : Nat)
    (e : String) (c2 : Nat) :
    (parse_args tokens stream = Except.error (ParseError.usage c) →
      mainRun fs rmF rmT tokens stream response = ([], c) ∧ c = 2) ∧
    (parse_args tokens stream = Except.error ParseError.notImplemented →
      mainRun fs rmF rmT tokens stream response = ([], 1)) ∧
    (parse_args tokens stream = Except.ok a →
      ((classify fs a.files).1 = [] ∧ (classify fs a.files).2.1 = [] →
        (mainRun fs rmF rmT tokens stream response).2 = 1) ∧
      (¬((classify fs a.files).1 = [] ∧ (classify fs a.files).2.1 = []) →
        (a.interactive = true → response ≠ "y" →
          (mainRun fs rmF rmT tokens stream response).2 = 0) ∧
        ((a.interactive = false ∨ response = "y") →
          ((remove rmF rmT (classify fs a.files).1 (classify fs a.files).2.1).2 = none →
            (mainRun fs rmF rmT tokens stream response).2 = 0) ∧
          ((remove rmF rmT (classify fs a.files).1 (classify fs a.files).2.1).2 =
              some (e, c2) →
            (mainRun fs rmF rmT tokens stream response).2 = c2 ∧ c2 = 1)))) := by
  refine ⟨?_, ?_, ?_⟩
  · intro hp
    have hc2 : c = 2 := by
      cases h0 : argparseRun tokens with
      | error c0 =>
        have hform : parse_args tokens stream = Except.error (ParseError.usage c0) := by
          unfold parse_args
          rw [h0]
        rw [hform] at hp
        injection hp with h1
        injection h1 with h2
        have h3 := argparseRun_error_code tokens c0 h0
        omega
      | ok a0 =>
        rw [parse_args_eq tokens stream a0 h0] at hp
        by_cases hcm : a0.command = Cmd.remove
        · rw [if_pos hcm] at hp
          cases hp
        · rw [if_neg hcm] at hp
          injection hp with h1
          cases h1
    refine ⟨?_, hc2⟩
    unfold mainRun
    rw [hp]
  · intro hp
    unfold mainRun
    rw [hp]
  · intro hp
    have hcmd := parse_args_ok_remove tokens stream a hp
    have hmr : mainRun fs rmF rmT tokens stream response =
        mainWithArgs fs rmF rmT response a := by
      unfold mainRun
      rw [hp]
    constructor
    · intro hnd
      rw [hmr, mainWithArgs_nothing fs rmF rmT response a hnd.1 hnd.2]
    · intro hne
      constructor
      · intro hi hr
        rw [hmr, mainWithArgs_decline fs rmF rmT response a hi hne hr]
      · intro hiy
        have hexec : (mainRun fs rmF rmT tokens stream response).2 =
            (executePhase rmF rmT a.command (classify fs a.files).1
              (classify fs a.files).2.1).2 := by
          rcases hiy with hi | hy
          · rw [hmr, mainWithArgs_noninteractive fs rmF rmT response a hi hne]
          · by_cases hi : a.interactive = true
            · rw [hmr, mainWithArgs_accept fs rmF rmT response a hi hne hy]
            · rw [hmr, mainWithArgs_noninteractive fs rmF rmT response a
                (by revert hi; cases a.interactive <;> simp) hne]
        constructor
        · intro hnone
          rw [hexec, hcmd]
          exact executePhase_exit_none rmF rmT _ _ hnone
        · intro hsome
          have hc1 := remove_some_code rmF rmT _ _ e c2 hsome
          refine ⟨?_, hc1⟩
          rw [hexec, hcmd]
          exact executePhase_exit_some rmF rmT _ _ e c2 hsome

/-- C9 counterexample: the invocation with paths [foo] and the invalid
    command token unknown is a usage error, and the process exit code is
    argparse's 2, not 1 as the claim states. -/
theorem usage_error_exits_two :
    (mainRun fsNone rmAllOk rmAllOk (["foo", "unknown"]) ("") ("y")).2 = 2 ∧
    (mainRun fsNone rmAllOk rmAllOk (["foo", "unknown"]) ("") ("y")).2 ≠ 1 := by
  constructor
  · rfl
  · decide

/-- C10: with path argument the bare dash and an empty standard-input
    stream, parse_args succeeds with an empty path list (the at-least-one
    requirement is not re-checked after substitution), and the whole run,
    over any filesystem, any primitives and any response, prints exactly
    the notice Nothing to do. and exits with code 1 attempting nothing. -/
theorem stdin_empty_stream_nothing (fs : FileSystem)
    (rmF rmT : String → Except String Unit) (response : String) :
    parse_args (["-", "remove"]) ("") =
      Except.ok ⟨[], Cmd.remove, false, true⟩ ∧
    mainRun fs rmF rmT (["-", "remove"]) ("") response =
      ([Event.printLine ("Nothing to do.")], 1) := by
  constructor
  · rfl
  · rfl

/- Concrete instances used by the witnesses. -/

/-- An interactive request for one nonexistent path. -/
def argsNothing : Args := ⟨["x"], Cmd.remove, true, true⟩

/-- An interactive request for one existing file. -/
def argsGate : Args := ⟨["a"], Cmd.remove, true, true⟩

/-- The namespace argparse returns for the dash invocation. -/
def argsDash : Args := ⟨["-"], Cmd.remove, false, false⟩

/-- The request resolved from the dash invocation with the three
    embedded-space paths of the spec's test vector on standard input. -/
def argsStdin : Args :=
  ⟨["foo bar", "baz bang", "qux quxx"], Cmd.remove, false, true⟩

/-- The namespace argparse returns for the move invocation. -/
def argsMove : Args := ⟨["foo"], Cmd.move, false, false⟩

/-- The layout print_items computes for three short items. -/
def layoutW : Layout := ⟨6, 20, 1, [["aa    ", "b     ", "cccc  "]]⟩

/-- C4 witness at a concrete run: one nonexistent path, everything absent. -/
theorem main_nothing_to_do_witness :
    (mainWithArgs fsNone rmAllOk rmAllOk ("y") argsNothing).2 = 1 ∧
    Event.printLine ("Nothing to do.") ∈
      (mainWithArgs fsNone rmAllOk rmAllOk ("y") argsNothing).1 ∧
    ∀ e ∈ (mainWithArgs fsNone rmAllOk rmAllOk ("y") argsNothing).1,
      isPromptEvent e = false ∧ isAttemptEvent e = false :=
  main_nothing_to_do fsNone rmAllOk rmAllOk ("y") argsNothing (by rfl) (by rfl)

/-- C5 witness at a concrete run: one existing file, interactive, with the
    declining response n. -/
theorem main_confirmation_gate_witness :
    (∀ e ∈ reportPhase argsGate.verbose argsGate.command
        (classify fsFileA argsGate.files).1 (classify fsFileA argsGate.files).2.1
        (classify fsFileA argsGate.files).2.2.1
        (classify fsFileA argsGate.files).2.2.2, isReportEvent e = true) ∧
    (("n" : String) ≠ "y" →
      mainWithArgs fsFileA rmAllOk rmAllOk ("n") argsGate =
        (reportPhase argsGate.verbose argsGate.command
            (classify fsFileA argsGate.files).1
            (classify fsFileA argsGate.files).2.1
            (classify fsFileA argsGate.files).2.2.1
            (classify fsFileA argsGate.files).2.2.2 ++
          [Event.prompt ("proceed? (y/n)")], 0) ∧
      ∀ e ∈ (mainWithArgs fsFileA rmAllOk rmAllOk ("n") argsGate).1,
        isAttemptEvent e = false) ∧
    (("n" : String) = "y" →
      mainWithArgs fsFileA rmAllOk rmAllOk ("n") argsGate =
        (reportPhase argsGate.verbose argsGate.command
            (classify fsFileA argsGate.files).1
            (classify fsFileA argsGate.files).2.1
            (classify fsFileA argsGate.files).2.2.1
            (classify fsFileA argsGate.files).2.2.2 ++
          [Event.prompt ("proceed? (y/n)")] ++
          (executePhase rmAllOk rmAllOk argsGate.command
            (classify fsFileA argsGate.files).1
            (classify fsFileA argsGate.files).2.1).1,
         (executePhase rmAllOk rmAllOk argsGate.command
            (classify fsFileA argsGate.files).1
            (classify fsFileA argsGate.files).2.1).2)) :=
  main_confirmation_gate fsFileA rmAllOk rmAllOk ("n") argsGate (by rfl) (by decide)

/-- C6 witness: the dash invocation with the spec's three embedded-space
    paths on standard input resolves to exactly those path strings with
    interactive off and verbose on. -/
theorem parse_args_stdin_witness :
    (argsDash.files = ["-"] →
      argsStdin.files =
        (pyLines ("foo bar\nbaz bang\nqux quxx")).map pyStrip ∧
      argsStdin.interactive = false ∧ argsStdin.verbose = true) ∧
    (argsDash.files ≠ ["-"] →
      argsStdin.files = argsDash.files ∧
      argsStdin.interactive = argsDash.interactive) :=
  parse_args_stdin_sourcing (["-", "remove"]) ("foo bar\nbaz bang\nqux quxx")
    argsDash argsStdin (by rfl) (by rfl)

/-- C7 witness: the layout of the three items aa, b, cccc: width 6, 20
    columns, one line, all three cells on it, left-justified. -/
theorem print_items_layout_witness :
    layoutW.width = maxLen (["aa", "b", "cccc"]) + 2 ∧
    (layoutW.width ≤ 120 → layoutW.itemsPerLine = 120 / layoutW.width) ∧
    (120 < layoutW.width → layoutW.itemsPerLine = 1) ∧
    layoutW.numLines =
      ((["aa", "b", "cccc"] : List String).length + layoutW.itemsPerLine - 1) /
        layoutW.itemsPerLine ∧
    layoutW.rows.length = layoutW.numLines ∧
    layoutW.rows.flatten =
      (["aa", "b", "cccc"] : List String).map (ljust layoutW.width) ∧
    ∀ r ∈ layoutW.rows, r.length ≤ layoutW.itemsPerLine :=
  print_items_layout (["aa", "b", "cccc"]) layoutW (by rfl)

/-- C8 witness: requesting move on one path fails with NotImplementedError,
    distinct from the usage error, and the run exits 1 with no output. -/
theorem move_copy_not_implemented_witness :
    parse_args (["foo", "move"]) ("") = Except.error ParseError.notImplemented ∧
    ParseError.notImplemented ≠ ParseError.usage 2 ∧
    mainRun fsNone rmAllOk rmAllOk (["foo", "move"]) ("") ("y") = ([], 1) :=
  move_copy_not_implemented (["foo", "move"]) ("") argsMove fsNone rmAllOk rmAllOk
    ("y") 2 (by rfl) (Or.inl (by rfl))
